import Mathlib

/-!
Verification of `src/clients/drcachesim/tools/schedule_stats.cpp`
(`schedule_stats_t`, DynamoRIO drcachesim schedule-stats tool).

The per-record classifier `parallel_shard_memref` (lines 136-240 of the
source) is embedded as a pure state-transition function on a shard state.
The record stream is modelled as a list of pairs `(input, memref)`: the
stream handle is external, and the only value the classifier reads from it
(besides diagnostics, which never touch state) is `get_input_id()`, so the
current input id is passed alongside each record.

Timeline characters are modelled by their character codes as integers:
the C++ code appends `char` values obtained by integer arithmetic
(`THREAD_LETTER_START + static_cast<char>(input % 26)`); every value the
code can produce lies in the range 40..90, so the conversion to `char`
never truncates and the integer code captures it exactly.
-/

namespace ScheduleStats

/-- Marker subtypes read by the tool (`TRACE_MARKER_TYPE_*`); every other
subtype is ignored by the code and collapses to `otherMarker`. -/
inductive MarkerType where
  | syscall
  | maybeBlockingSyscall
  | directThreadSwitch
  | coreWait
  | otherMarker
  deriving DecidableEq

/-- The record kinds distinguished by `parallel_shard_memref`: the code only
tests `type_is_instr(...)`, `type == TRACE_TYPE_MARKER` (with the marker
subtype and value) and `type == TRACE_TYPE_THREAD_EXIT`; all remaining
types (data reads/writes etc.) are treated alike and collapse to `otherRec`. -/
inductive RecKind where
  | instrRec
  | markerRec (mt : MarkerType) (val : Int)
  | threadExitRec
  | otherRec
  deriving DecidableEq

/-- One trace record (`memref_t`) as observed by this tool: its kind and its
thread id (the `tid` field shared by every member of the `memref_t` union). -/
structure Memref where
  kind : RecKind
  tid : Int
  deriving DecidableEq

def isCoreWaitRec (r : Memref) : Bool :=
  match r.kind with
  | .markerRec .coreWait _ => true
  | _ => false

def isInstrRec (r : Memref) : Bool :=
  match r.kind with
  | .instrRec => true
  | _ => false

def isMaybeBlockingRec (r : Memref) : Bool :=
  match r.kind with
  | .markerRec .maybeBlockingSyscall _ => true
  | _ => false

def isDirectRec (r : Memref) : Bool :=
  match r.kind with
  | .markerRec .directThreadSwitch _ => true
  | _ => false

def isExitRec (r : Memref) : Bool :=
  match r.kind with
  | .threadExitRec => true
  | _ => false

/-- The `marker_value` field of a marker record (only read when the record
is a marker of the matching subtype). -/
def markerValue (r : Memref) : Int :=
  match r.kind with
  | .markerRec _ v => v
  | _ => 0

/-- Modelled from the spec: the sentinel "none" thread id
(`INVALID_THREAD_ID` from the DynamoRIO headers, which are not under
`src/`); `direct_switch_target` is initialized to it and reset to it at
every instruction boundary. -/
def INVALID_THREAD_ID : Int := 0

/-- Character code of `THREAD_LETTER_START` = `'A'` (line 139). -/
def THREAD_LETTER_START : Int := 65

/-- Character code of `THREAD_SEPARATOR` = `','` (line 140). -/
def THREAD_SEPARATOR : Int := 44

/-- Character code of `WAIT_SYMBOL` = `'-'` (line 141). -/
def WAIT_SYMBOL : Int := 45

/-- The timeline letter for an input id: `THREAD_LETTER_START +
static_cast<char>(input % 26)` (lines 191 and 216). C++ `%` on `int64_t`
truncates toward zero, which is `Int.tmod`. -/
def inputLetter (input : Int) : Int :=
  THREAD_LETTER_START + Int.tmod input 26

/-- The counters of `counters_t` (declared in `schedule_stats.h`); all scalar
counters are unsigned 64-bit integers in the source and are modelled as `Nat`
(they are only ever incremented), `threads` is the unique-thread-id set. -/
structure Counters where
  threads : Finset Int
  instrs : Nat
  total_switches : Nat
  voluntary_switches : Nat
  direct_switches : Nat
  syscalls : Nat
  maybe_blocking_syscalls : Nat
  direct_switch_requests : Nat
  waits : Nat
  deriving DecidableEq

/-- Zero counters: the default-constructed `counters_t`. -/
def initCounters : Counters :=
  { threads := ∅
    instrs := 0
    total_switches := 0
    voluntary_switches := 0
    direct_switches := 0
    syscalls := 0
    maybe_blocking_syscalls := 0
    direct_switch_requests := 0
    waits := 0 }

/-- The mutable per-core shard state `per_shard_t` (the `stream` handle is
external and is represented by passing the current input id with each
record). -/
structure PerShard where
  core : Int
  counters : Counters
  prev_input : Int
  thread_sequence : List Int
  cur_segment_instrs : Nat
  prev_was_wait : Bool
  saw_maybe_blocking : Bool
  saw_exit : Bool
  direct_switch_target : Int
  error : String
  deriving DecidableEq

/-- Modelled from the spec: the default member initializers of `per_shard_t`
are declared in `schedule_stats.h`, which is not under `src/`. The spec
states that `prev_input` starts at a sentinel "none", the boundary flags
start clear, `direct_switch_target` starts at "none", the sequence starts
empty and `error` is an optional message that is initially unset;
`parallel_shard_init_stream` (lines 110-120) then fills in `core`. -/
def per_shard_init (core : Int) : PerShard :=
  { core := core
    counters := initCounters
    prev_input := -1
    thread_sequence := []
    cur_segment_instrs := 0
    prev_was_wait := false
    saw_maybe_blocking := false
    saw_exit := false
    direct_switch_target := INVALID_THREAD_ID
    error := "" }

/-- Lines 162-176: the `TRACE_MARKER_TYPE_CORE_WAIT` branch. The wait
counter always increments; the first wait of a run appends one wait symbol
and resets `cur_segment_instrs`; a sustained wait increments
`cur_segment_instrs` and appends one more wait symbol exactly when the count
reaches `knob_print_every_` (the count is not reset there). -/
def coreWaitUpdate (knob_print_every : Nat) (shard : PerShard) : PerShard :=
  let shard := { shard with
    counters := { shard.counters with waits := shard.counters.waits + 1 } }
  if !shard.prev_was_wait then
    { shard with
      thread_sequence := shard.thread_sequence ++ [WAIT_SYMBOL]
      cur_segment_instrs := 0
      prev_was_wait := true }
  else
    let shard := { shard with cur_segment_instrs := shard.cur_segment_instrs + 1 }
    if shard.cur_segment_instrs = knob_print_every then
      { shard with thread_sequence := shard.thread_sequence ++ [WAIT_SYMBOL] }
    else
      shard

/-- Lines 180-190: the body of `if (!shard->thread_sequence.empty())` inside
the input-change branch: count the switch, classify it from the boundary
flags and the record tid, and append the separator. -/
def switchCount (shard : PerShard) (tid : Int) : PerShard :=
  { shard with
    counters := { shard.counters with
      total_switches := shard.counters.total_switches + 1
      voluntary_switches :=
        if shard.saw_maybe_blocking || shard.saw_exit then
          shard.counters.voluntary_switches + 1
        else
          shard.counters.voluntary_switches
      direct_switches :=
        if shard.direct_switch_target = tid then
          shard.counters.direct_switches + 1
        else
          shard.counters.direct_switches }
    thread_sequence := shard.thread_sequence ++ [THREAD_SEPARATOR] }

/-- Lines 191-210: append the new occupant letter, reset the segment count
and record the new input. -/
def switchLetter (shard : PerShard) (input : Int) : PerShard :=
  { shard with
    thread_sequence := shard.thread_sequence ++ [inputLetter input]
    cur_segment_instrs := 0
    prev_input := input }

/-- Lines 177-211: the input-change branch of `parallel_shard_memref`. -/
def inputChangeUpdate (shard : PerShard) (input : Int) (tid : Int) : PerShard :=
  if input ≠ shard.prev_input then
    switchLetter (if shard.thread_sequence ≠ [] then switchCount shard tid else shard) input
  else
    shard

/-- Lines 213-214: count the instruction. -/
def instrTick (shard : PerShard) : PerShard :=
  { shard with
    counters := { shard.counters with instrs := shard.counters.instrs + 1 }
    cur_segment_instrs := shard.cur_segment_instrs + 1 }

/-- Lines 216-217: the quantum re-affirmation letter. -/
def quantumLetter (shard : PerShard) (input : Int) : PerShard :=
  { shard with
    thread_sequence := shard.thread_sequence ++ [inputLetter input]
    cur_segment_instrs := 0 }

/-- Lines 219-221: the instruction boundary clears the classification flags. -/
def boundaryClear (shard : PerShard) : PerShard :=
  { shard with
    direct_switch_target := INVALID_THREAD_ID
    saw_maybe_blocking := false
    saw_exit := false }

/-- Lines 212-222: the instruction branch of `parallel_shard_memref`. -/
def instrUpdate (knob_print_every : Nat) (shard : PerShard) (input : Int) : PerShard :=
  boundaryClear
    (if (instrTick shard).cur_segment_instrs = knob_print_every then
      quantumLetter (instrTick shard) input
    else
      instrTick shard)

/-- Lines 223-224: record the thread id when it is valid. -/
def threadBookkeep (shard : PerShard) (tid : Int) : PerShard :=
  if tid ≠ INVALID_THREAD_ID then
    { shard with
      counters := { shard.counters with threads := insert tid shard.counters.threads } }
  else
    shard

/-- Lines 225-237: marker classification and the thread-exit flag. -/
def markerUpdate (shard : PerShard) (r : Memref) : PerShard :=
  match r.kind with
  | .markerRec mt v =>
    match mt with
    | .syscall =>
      { shard with
        counters := { shard.counters with syscalls := shard.counters.syscalls + 1 } }
    | .maybeBlockingSyscall =>
      { shard with
        counters := { shard.counters with
          maybe_blocking_syscalls := shard.counters.maybe_blocking_syscalls + 1 }
        saw_maybe_blocking := true }
    | .directThreadSwitch =>
      { shard with
        counters := { shard.counters with
          direct_switch_requests := shard.counters.direct_switch_requests + 1 }
        direct_switch_target := v }
    | _ => shard
  | .threadExitRec => { shard with saw_exit := true }
  | _ => shard

/-- Lines 136-240: `schedule_stats_t::parallel_shard_memref`. The verbosity
blocks only print diagnostics and touch no state, so they are omitted. The
function returns the C++ return value paired with the updated shard. -/
def parallel_shard_memref (knob_print_every : Nat) (shard : PerShard) (input : Int)
    (memref : Memref) : Bool × PerShard :=
  if isCoreWaitRec memref then
    (true, coreWaitUpdate knob_print_every shard)
  else
    let shard := inputChangeUpdate shard input memref.tid
    let shard := if isInstrRec memref then instrUpdate knob_print_every shard input else shard
    let shard := threadBookkeep shard memref.tid
    let shard := markerUpdate shard memref
    (true, { shard with prev_was_wait := false })

/-- Feed a list of `(input, record)` pairs through the classifier in order. -/
def runShard (knob_print_every : Nat) (shard : PerShard)
    (rs : List (Int × Memref)) : PerShard :=
  rs.foldl (fun acc p => (parallel_shard_memref knob_print_every acc p.1 p.2).2) shard

/-- Lines 129-134: `schedule_stats_t::parallel_shard_error`. -/
def parallel_shard_error (shard : PerShard) : String :=
  shard.error

/-- Lines 81-87: `schedule_stats_t::initialize_stream`; a non-null serial
stream is rejected. The stream pointer is modelled as an `Option`. -/
def init_stream (serial_stream : Option Unit) : String :=
  match serial_stream with
  | some _ => "Only core-sharded operation is supported"
  | none => ""

/-- The shard types of `shard_type_t` as far as this tool distinguishes
them: `SHARD_BY_CORE` against everything else. -/
inductive ShardType where
  | byCore
  | byThread
  deriving DecidableEq

/-- Lines 89-95: `schedule_stats_t::initialize_shard_type`. -/
def init_shard_type (shard_type : ShardType) : String :=
  if shard_type ≠ ShardType.byCore then "Only core-sharded operation is supported"
  else ""

/-- Lines 97-102: `schedule_stats_t::process_memref`, the serial per-record
entry point: it stores a descriptive message in `error_string_` and fails.
It is modelled as a function of the stored error string, returning the C++
return value paired with the new stored string. -/
def process_memref (error_string : String) (memref : Memref) : Bool × String :=
  (false, "Only core-sharded operation is supported.")

/-- Modelled from the spec: `counters_t::operator+=` is declared in
`schedule_stats.h`, which is not under `src/`. The spec states that
aggregation is the element-wise sum of every counter across shards, with
the unique-thread sets unioned. -/
def addCounters (a b : Counters) : Counters :=
  { threads := a.threads ∪ b.threads
    instrs := a.instrs + b.instrs
    total_switches := a.total_switches + b.total_switches
    voluntary_switches := a.voluntary_switches + b.voluntary_switches
    direct_switches := a.direct_switches + b.direct_switches
    syscalls := a.syscalls + b.syscalls
    maybe_blocking_syscalls := a.maybe_blocking_syscalls + b.maybe_blocking_syscalls
    direct_switch_requests := a.direct_switch_requests + b.direct_switch_requests
    waits := a.waits + b.waits }

/-- Lines 282-285 of `print_results`: `counters_t total;` followed by
`total += shard.second->counters` over the registered shards. -/
def aggregateCounters (shards : List Counters) : Counters :=
  shards.foldl addCounters initCounters

/-- Lines 248-253 of `print_counters`: the two ratio divisions
(numerator, denominator) that are always performed — CSPKI
(`1000 * total_switches / instrs`) and instructions per context switch
(`instrs / total_switches`). Both are floating-point divisions performed
with no guard on the denominator. -/
def ratioDivisions (c : Counters) : List (Nat × Nat) :=
  [(1000 * c.total_switches, c.instrs), (c.instrs, c.total_switches)]

/-- Lines 258-268 of `print_counters`: the two percentage divisions, emitted
only under `counters.total_switches > 0`. -/
def percentDivisions (c : Counters) : List (Nat × Nat) :=
  if 0 < c.total_switches then
    [(100 * c.voluntary_switches, c.total_switches),
     (100 * c.direct_switches, c.total_switches)]
  else
    []

/-- Every division performed by `print_counters` (lines 242-275), as
(numerator, denominator) pairs in emission order. -/
def print_counters_divisions (c : Counters) : List (Nat × Nat) :=
  ratioDivisions c ++ percentDivisions c

/-- The thread id nominated by the most recent `DIRECT_THREAD_SWITCH`
marker of a record run, starting from `t` (the value held by
`direct_switch_target` before the run). -/
def lastDirectTarget (t : Int) (rs : List (Int × Memref)) : Int :=
  rs.foldl (fun acc p => if isDirectRec p.2 then markerValue p.2 else acc) t

/-- A `CORE_WAIT` marker record. -/
def waitRec : Memref :=
  { kind := .markerRec .coreWait 0, tid := 1 }

/-- A run of `n` consecutive `CORE_WAIT` records fed on input id `i`. -/
def waitRun (n : Nat) (i : Int) : List (Int × Memref) :=
  List.replicate n (i, waitRec)

/-- A run of `n` consecutive instruction records from input `input`, all
carrying thread id `t`. -/
def instrRun (n : Nat) (input t : Int) : List (Int × Memref) :=
  List.replicate n (input, { kind := .instrRec, tid := t })

/-- A concrete mid-processing shard state: input 0 has occupied the core,
its letter is on the timeline, and the current segment has just started. -/
def midShard : PerShard :=
  { core := 0
    counters := initCounters
    prev_input := 0
    thread_sequence := [65]
    cur_segment_instrs := 0
    prev_was_wait := false
    saw_maybe_blocking := false
    saw_exit := false
    direct_switch_target := INVALID_THREAD_ID
    error := "" }

/-- `midShard` with five instructions already in the current segment. -/
def midShard5 : PerShard :=
  { midShard with cur_segment_instrs := 5 }

/-! Helper lemmas: how each block of the classifier acts on each field. -/

theorem runShard_nil (pe : Nat) (s : PerShard) : runShard pe s [] = s := rfl

theorem runShard_cons (pe : Nat) (s : PerShard) (p : Int × Memref)
    (rs : List (Int × Memref)) :
    runShard pe s (p :: rs) = runShard pe (parallel_shard_memref pe s p.1 p.2).2 rs := rfl

theorem runShard_pair_cons (pe : Nat) (s : PerShard) (i : Int) (r : Memref)
    (rs : List (Int × Memref)) :
    runShard pe s ((i, r) :: rs) = runShard pe (parallel_shard_memref pe s i r).2 rs := rfl

theorem runShard_append (pe : Nat) (s : PerShard) (l1 l2 : List (Int × Memref)) :
    runShard pe s (l1 ++ l2) = runShard pe (runShard pe s l1) l2 := by
  simp [runShard, List.foldl_append]

theorem memref_step_wait (pe : Nat) (s : PerShard) (i : Int) (r : Memref)
    (h : isCoreWaitRec r = true) :
    parallel_shard_memref pe s i r = (true, coreWaitUpdate pe s) := by
  simp [parallel_shard_memref, h]

theorem memref_step_nonwait (pe : Nat) (s : PerShard) (i : Int) (r : Memref)
    (h : isCoreWaitRec r = false) :
    parallel_shard_memref pe s i r =
      (true,
        { markerUpdate
            (threadBookkeep
              (if isInstrRec r then instrUpdate pe (inputChangeUpdate s i r.tid) i
               else inputChangeUpdate s i r.tid)
              r.tid)
            r with
          prev_was_wait := false }) := by
  simp [parallel_shard_memref, h]

theorem coreWaitUpdate_first (pe : Nat) (s : PerShard) (h : s.prev_was_wait = false) :
    coreWaitUpdate pe s =
      { s with
        counters := { s.counters with waits := s.counters.waits + 1 }
        thread_sequence := s.thread_sequence ++ [WAIT_SYMBOL]
        cur_segment_instrs := 0
        prev_was_wait := true } := by
  simp [coreWaitUpdate, h]

theorem coreWaitUpdate_sustained_hit (pe : Nat) (s : PerShard)
    (h : s.prev_was_wait = true) (h2 : s.cur_segment_instrs + 1 = pe) :
    coreWaitUpdate pe s =
      { s with
        counters := { s.counters with waits := s.counters.waits + 1 }
        cur_segment_instrs := s.cur_segment_instrs + 1
        thread_sequence := s.thread_sequence ++ [WAIT_SYMBOL] } := by
  simp [coreWaitUpdate, h, h2]

theorem coreWaitUpdate_sustained_miss (pe : Nat) (s : PerShard)
    (h : s.prev_was_wait = true) (h2 : s.cur_segment_instrs + 1 ≠ pe) :
    coreWaitUpdate pe s =
      { s with
        counters := { s.counters with waits := s.counters.waits + 1 }
        cur_segment_instrs := s.cur_segment_instrs + 1 } := by
  simp [coreWaitUpdate, h, h2]

theorem coreWaitUpdate_flags (pe : Nat) (s : PerShard) :
    (coreWaitUpdate pe s).saw_maybe_blocking = s.saw_maybe_blocking ∧
    (coreWaitUpdate pe s).saw_exit = s.saw_exit ∧
    (coreWaitUpdate pe s).direct_switch_target = s.direct_switch_target ∧
    (coreWaitUpdate pe s).prev_input = s.prev_input ∧
    (coreWaitUpdate pe s).error = s.error := by
  simp only [coreWaitUpdate]
  split
  · exact ⟨rfl, rfl, rfl, rfl, rfl⟩
  · split
    · exact ⟨rfl, rfl, rfl, rfl, rfl⟩
    · exact ⟨rfl, rfl, rfl, rfl, rfl⟩

theorem inputChangeUpdate_same (s : PerShard) (input tid : Int)
    (h : input = s.prev_input) :
    inputChangeUpdate s input tid = s := by
  simp [inputChangeUpdate, h]

theorem inputChangeUpdate_switch (s : PerShard) (input tid : Int)
    (h : input ≠ s.prev_input) (h2 : s.thread_sequence ≠ []) :
    inputChangeUpdate s input tid = switchLetter (switchCount s tid) input := by
  simp [inputChangeUpdate, h, h2]

theorem inputChangeUpdate_firstLetter (s : PerShard) (input tid : Int)
    (h : input ≠ s.prev_input) (h2 : s.thread_sequence = []) :
    inputChangeUpdate s input tid = switchLetter s input := by
  simp [inputChangeUpdate, h, h2]

theorem inputChangeUpdate_frame (s : PerShard) (input tid : Int) :
    (inputChangeUpdate s input tid).counters.instrs = s.counters.instrs ∧
    (inputChangeUpdate s input tid).counters.waits = s.counters.waits ∧
    (inputChangeUpdate s input tid).saw_maybe_blocking = s.saw_maybe_blocking ∧
    (inputChangeUpdate s input tid).saw_exit = s.saw_exit ∧
    (inputChangeUpdate s input tid).direct_switch_target = s.direct_switch_target ∧
    (inputChangeUpdate s input tid).prev_was_wait = s.prev_was_wait ∧
    (inputChangeUpdate s input tid).error = s.error := by
  unfold inputChangeUpdate switchLetter switchCount
  split
  · split
    · exact ⟨rfl, rfl, rfl, rfl, rfl, rfl, rfl⟩
    · exact ⟨rfl, rfl, rfl, rfl, rfl, rfl, rfl⟩
  · exact ⟨rfl, rfl, rfl, rfl, rfl, rfl, rfl⟩

theorem instrUpdate_eq (pe : Nat) (s : PerShard) (input : Int) :
    instrUpdate pe s input =
      { s with
        counters := { s.counters with instrs := s.counters.instrs + 1 }
        cur_segment_instrs :=
          if s.cur_segment_instrs + 1 = pe then 0 else s.cur_segment_instrs + 1
        thread_sequence :=
          if s.cur_segment_instrs + 1 = pe then s.thread_sequence ++ [inputLetter input]
          else s.thread_sequence
        direct_switch_target := INVALID_THREAD_ID
        saw_maybe_blocking := false
        saw_exit := false } := by
  unfold instrUpdate boundaryClear quantumLetter instrTick
  split
  · simp_all
  · simp_all

theorem threadBookkeep_frame (s : PerShard) (tid : Int) :
    (threadBookkeep s tid).counters.instrs = s.counters.instrs ∧
    (threadBookkeep s tid).counters.total_switches = s.counters.total_switches ∧
    (threadBookkeep s tid).counters.voluntary_switches = s.counters.voluntary_switches ∧
    (threadBookkeep s tid).counters.direct_switches = s.counters.direct_switches ∧
    (threadBookkeep s tid).counters.waits = s.counters.waits ∧
    (threadBookkeep s tid).thread_sequence = s.thread_sequence ∧
    (threadBookkeep s tid).cur_segment_instrs = s.cur_segment_instrs ∧
    (threadBookkeep s tid).prev_input = s.prev_input ∧
    (threadBookkeep s tid).saw_maybe_blocking = s.saw_maybe_blocking ∧
    (threadBookkeep s tid).saw_exit = s.saw_exit ∧
    (threadBookkeep s tid).direct_switch_target = s.direct_switch_target ∧
    (threadBookkeep s tid).error = s.error := by
  unfold threadBookkeep
  split
  · exact ⟨rfl, rfl, rfl, rfl, rfl, rfl, rfl, rfl, rfl, rfl, rfl, rfl⟩
  · exact ⟨rfl, rfl, rfl, rfl, rfl, rfl, rfl, rfl, rfl, rfl, rfl, rfl⟩

theorem markerUpdate_frame (s : PerShard) (r : Memref) :
    (markerUpdate s r).counters.instrs = s.counters.instrs ∧
    (markerUpdate s r).counters.total_switches = s.counters.total_switches ∧
    (markerUpdate s r).counters.voluntary_switches = s.counters.voluntary_switches ∧
    (markerUpdate s r).counters.direct_switches = s.counters.direct_switches ∧
    (markerUpdate s r).counters.waits = s.counters.waits ∧
    (markerUpdate s r).thread_sequence = s.thread_sequence ∧
    (markerUpdate s r).cur_segment_instrs = s.cur_segment_instrs ∧
    (markerUpdate s r).prev_input = s.prev_input ∧
    (markerUpdate s r).error = s.error := by
  unfold markerUpdate
  rcases r with ⟨k, t⟩
  rcases k with _ | ⟨mt, v⟩ | _ | _
  · exact ⟨rfl, rfl, rfl, rfl, rfl, rfl, rfl, rfl, rfl⟩
  · rcases mt <;> exact ⟨rfl, rfl, rfl, rfl, rfl, rfl, rfl, rfl, rfl⟩
  · exact ⟨rfl, rfl, rfl, rfl, rfl, rfl, rfl, rfl, rfl⟩
  · exact ⟨rfl, rfl, rfl, rfl, rfl, rfl, rfl, rfl, rfl⟩

theorem markerUpdate_flags (s : PerShard) (r : Memref) :
    (markerUpdate s r).saw_maybe_blocking = (s.saw_maybe_blocking || isMaybeBlockingRec r) ∧
    (markerUpdate s r).saw_exit = (s.saw_exit || isExitRec r) ∧
    (markerUpdate s r).direct_switch_target =
      (if isDirectRec r then markerValue r else s.direct_switch_target) := by
  unfold markerUpdate isMaybeBlockingRec isExitRec isDirectRec markerValue
  rcases r with ⟨k, t⟩
  rcases k with _ | ⟨mt, v⟩ | _ | _
  · simp
  · rcases mt <;> simp
  · simp
  · simp

theorem coreWait_excludes (r : Memref) (h : isCoreWaitRec r = true) :
    isMaybeBlockingRec r = false ∧ isExitRec r = false ∧ isDirectRec r = false ∧
    isInstrRec r = false := by
  rcases r with ⟨k, t⟩
  rcases k with _ | ⟨mt, v⟩ | _ | _ <;>
    simp_all [isCoreWaitRec, isMaybeBlockingRec, isExitRec, isDirectRec, isInstrRec]
  rcases mt <;> simp_all

theorem instr_not_wait (r : Memref) (h : isInstrRec r = true) :
    isCoreWaitRec r = false := by
  rcases r with ⟨k, t⟩
  rcases k with _ | ⟨mt, v⟩ | _ | _ <;> simp_all [isCoreWaitRec, isInstrRec]

theorem instr_excludes (r : Memref) (h : isInstrRec r = true) :
    isMaybeBlockingRec r = false ∧ isExitRec r = false ∧ isDirectRec r = false := by
  rcases r with ⟨k, t⟩
  rcases k with _ | ⟨mt, v⟩ | _ | _ <;>
    simp_all [isMaybeBlockingRec, isExitRec, isDirectRec, isInstrRec]

theorem step_error (pe : Nat) (s : PerShard) (i : Int) (r : Memref) :
    (parallel_shard_memref pe s i r).2.error = s.error := by
  cases hw : isCoreWaitRec r with
  | true =>
    rw [memref_step_wait pe s i r hw]
    exact (coreWaitUpdate_flags pe s).2.2.2.2
  | false =>
    rw [memref_step_nonwait pe s i r hw]
    obtain ⟨-, -, -, -, -, -, -, -, hm⟩ :=
      markerUpdate_frame
        (threadBookkeep
          (if isInstrRec r then instrUpdate pe (inputChangeUpdate s i r.tid) i
           else inputChangeUpdate s i r.tid) r.tid) r
    obtain ⟨-, -, -, -, -, -, -, -, -, -, -, ht⟩ :=
      threadBookkeep_frame
        (if isInstrRec r then instrUpdate pe (inputChangeUpdate s i r.tid) i
         else inputChangeUpdate s i r.tid) r.tid
    obtain ⟨-, -, -, -, -, -, hc⟩ := inputChangeUpdate_frame s i r.tid
    cases hi : isInstrRec r with
    | true =>
      have hiu : (instrUpdate pe (inputChangeUpdate s i r.tid) i).error
          = (inputChangeUpdate s i r.tid).error := by
        rw [instrUpdate_eq]
      simp only [hi, if_true] at hm ht ⊢
      exact hm.trans (ht.trans (hiu.trans hc))
    | false =>
      simp only [hi, if_false] at hm ht ⊢
      exact hm.trans (ht.trans hc)

theorem coreWaitUpdate_seq (pe : Nat) (s : PerShard) :
    ∃ t, (coreWaitUpdate pe s).thread_sequence = s.thread_sequence ++ t := by
  simp only [coreWaitUpdate]
  split
  · exact ⟨[WAIT_SYMBOL], rfl⟩
  · split
    · exact ⟨[WAIT_SYMBOL], rfl⟩
    · exact ⟨[], (List.append_nil _).symm⟩

theorem inputChangeUpdate_seq (s : PerShard) (input tid : Int) :
    ∃ t, (inputChangeUpdate s input tid).thread_sequence = s.thread_sequence ++ t := by
  simp only [inputChangeUpdate, switchLetter, switchCount]
  split
  · split
    · exact ⟨[THREAD_SEPARATOR, inputLetter input], by simp⟩
    · exact ⟨[inputLetter input], rfl⟩
  · exact ⟨[], (List.append_nil _).symm⟩

theorem instrUpdate_seq (pe : Nat) (s : PerShard) (input : Int) :
    ∃ t, (instrUpdate pe s input).thread_sequence = s.thread_sequence ++ t := by
  rw [instrUpdate_eq]
  by_cases h : s.cur_segment_instrs + 1 = pe
  · exact ⟨[inputLetter input], by simp [h]⟩
  · exact ⟨[], by simp [h]⟩

theorem step_flags_noninstr (pe : Nat) (s : PerShard) (i : Int) (r : Memref)
    (hni : isInstrRec r = false) :
    (parallel_shard_memref pe s i r).2.saw_maybe_blocking
        = (s.saw_maybe_blocking || isMaybeBlockingRec r) ∧
    (parallel_shard_memref pe s i r).2.saw_exit = (s.saw_exit || isExitRec r) ∧
    (parallel_shard_memref pe s i r).2.direct_switch_target
        = (if isDirectRec r then markerValue r else s.direct_switch_target) := by
  cases hw : isCoreWaitRec r with
  | true =>
    rw [memref_step_wait pe s i r hw]
    obtain ⟨e1, e2, e3, -⟩ := coreWait_excludes r hw
    obtain ⟨f1, f2, f3, -, -⟩ := coreWaitUpdate_flags pe s
    rw [e1, e2, e3, f1, f2, f3]
    simp
  | false =>
    rw [memref_step_nonwait pe s i r hw]
    simp only [hni, if_false]
    obtain ⟨m1, m2, m3⟩ :=
      markerUpdate_flags (threadBookkeep (inputChangeUpdate s i r.tid) r.tid) r
    obtain ⟨-, -, -, -, -, -, -, -, t1, t2, t3, -⟩ :=
      threadBookkeep_frame (inputChangeUpdate s i r.tid) r.tid
    obtain ⟨-, -, c1, c2, c3, -, -⟩ := inputChangeUpdate_frame s i r.tid
    refine ⟨?_, ?_, ?_⟩
    · exact m1.trans (by rw [t1, c1])
    · exact m2.trans (by rw [t2, c2])
    · exact m3.trans (by rw [t3, c3])

theorem step_instr_flags (pe : Nat) (s : PerShard) (i : Int) (r : Memref)
    (hi : isInstrRec r = true) :
    (parallel_shard_memref pe s i r).2.saw_maybe_blocking = false ∧
    (parallel_shard_memref pe s i r).2.saw_exit = false ∧
    (parallel_shard_memref pe s i r).2.direct_switch_target = INVALID_THREAD_ID := by
  rw [memref_step_nonwait pe s i r (instr_not_wait r hi)]
  simp only [hi, if_true]
  obtain ⟨e1, e2, e3⟩ := instr_excludes r hi
  obtain ⟨m1, m2, m3⟩ :=
    markerUpdate_flags (threadBookkeep (instrUpdate pe (inputChangeUpdate s i r.tid) i) r.tid) r
  obtain ⟨-, -, -, -, -, -, -, -, t1, t2, t3, -⟩ :=
    threadBookkeep_frame (instrUpdate pe (inputChangeUpdate s i r.tid) i) r.tid
  have u1 : (instrUpdate pe (inputChangeUpdate s i r.tid) i).saw_maybe_blocking = false := by
    rw [instrUpdate_eq]
  have u2 : (instrUpdate pe (inputChangeUpdate s i r.tid) i).saw_exit = false := by
    rw [instrUpdate_eq]
  have u3 : (instrUpdate pe (inputChangeUpdate s i r.tid) i).direct_switch_target
      = INVALID_THREAD_ID := by
    rw [instrUpdate_eq]
  refine ⟨?_, ?_, ?_⟩
  · rw [m1, e1, t1, u1]; simp
  · rw [m2, e2, t2, u2]; simp
  · rw [m3, e3, t3, u3]; simp

theorem step_switch_counts (pe : Nat) (s : PerShard) (i : Int) (r : Memref)
    (hw : isCoreWaitRec r = false) (hin : i ≠ s.prev_input)
    (hseq : s.thread_sequence ≠ []) :
    (parallel_shard_memref pe s i r).2.counters.total_switches
        = s.counters.total_switches + 1 ∧
    (parallel_shard_memref pe s i r).2.counters.voluntary_switches
        = s.counters.voluntary_switches
          + (if s.saw_maybe_blocking || s.saw_exit then 1 else 0) ∧
    (parallel_shard_memref pe s i r).2.counters.direct_switches
        = s.counters.direct_switches
          + (if s.direct_switch_target = r.tid then 1 else 0) := by
  rw [memref_step_nonwait pe s i r hw]
  have hic : inputChangeUpdate s i r.tid = switchLetter (switchCount s r.tid) i :=
    inputChangeUpdate_switch s i r.tid hin hseq
  cases hi : isInstrRec r with
  | true =>
    simp only [hi, if_true, hic]
    obtain ⟨-, m1, m2, m3, -, -, -, -, -⟩ :=
      markerUpdate_frame
        (threadBookkeep (instrUpdate pe (switchLetter (switchCount s r.tid) i) i) r.tid) r
    obtain ⟨-, t1, t2, t3, -, -, -, -, -, -, -, -⟩ :=
      threadBookkeep_frame (instrUpdate pe (switchLetter (switchCount s r.tid) i) i) r.tid
    have u1 : (instrUpdate pe (switchLetter (switchCount s r.tid) i) i).counters.total_switches
        = (switchLetter (switchCount s r.tid) i).counters.total_switches := by
      rw [instrUpdate_eq]
    have u2 : (instrUpdate pe (switchLetter (switchCount s r.tid) i) i).counters.voluntary_switches
        = (switchLetter (switchCount s r.tid) i).counters.voluntary_switches := by
      rw [instrUpdate_eq]
    have u3 : (instrUpdate pe (switchLetter (switchCount s r.tid) i) i).counters.direct_switches
        = (switchLetter (switchCount s r.tid) i).counters.direct_switches := by
      rw [instrUpdate_eq]
    refine ⟨?_, ?_, ?_⟩
    · rw [m1, t1, u1]; simp [switchLetter, switchCount]
    · rw [m2, t2, u2]; simp [switchLetter, switchCount]
      split <;> simp
    · rw [m3, t3, u3]; simp [switchLetter, switchCount]
      split <;> simp
  | false =>
    simp only [hi, Bool.false_eq_true, if_false, hic]
    obtain ⟨-, m1, m2, m3, -, -, -, -, -⟩ :=
      markerUpdate_frame (threadBookkeep (switchLetter (switchCount s r.tid) i) r.tid) r
    obtain ⟨-, t1, t2, t3, -, -, -, -, -, -, -, -⟩ :=
      threadBookkeep_frame (switchLetter (switchCount s r.tid) i) r.tid
    refine ⟨?_, ?_, ?_⟩
    · rw [m1, t1]; simp [switchLetter, switchCount]
    · rw [m2, t2]; simp [switchLetter, switchCount]
      split <;> simp
    · rw [m3, t3]; simp [switchLetter, switchCount]
      split <;> simp

theorem flags_after_run (pe : Nat) (rs : List (Int × Memref)) :
    ∀ s : PerShard, (∀ p ∈ rs, isInstrRec p.2 = false) →
    (runShard pe s rs).saw_maybe_blocking
        = (s.saw_maybe_blocking || rs.any (fun p => isMaybeBlockingRec p.2)) ∧
    (runShard pe s rs).saw_exit = (s.saw_exit || rs.any (fun p => isExitRec p.2)) ∧
    (runShard pe s rs).direct_switch_target
        = lastDirectTarget s.direct_switch_target rs := by
  induction rs with
  | nil =>
    intro s h
    simp [runShard_nil, lastDirectTarget]
  | cons p rest ih =>
    intro s h
    have hp : isInstrRec p.2 = false := h p (by simp)
    have hrest : ∀ q ∈ rest, isInstrRec q.2 = false := fun q hq => h q (by simp [hq])
    rw [runShard_cons]
    obtain ⟨i1, i2, i3⟩ := ih ((parallel_shard_memref pe s p.1 p.2).2) hrest
    obtain ⟨f1, f2, f3⟩ := step_flags_noninstr pe s p.1 p.2 hp
    refine ⟨?_, ?_, ?_⟩
    · rw [i1, f1]; simp [Bool.or_assoc]
    · rw [i2, f2]; simp [Bool.or_assoc]
    · rw [i3, f3]; rfl

theorem step_instr_same (pe : Nat) (s : PerShard) (input t : Int)
    (hprev : s.prev_input = input) :
    (parallel_shard_memref pe s input { kind := .instrRec, tid := t }).2 =
      { threadBookkeep (instrUpdate pe s input) t with prev_was_wait := false } := by
  have hw : isCoreWaitRec { kind := .instrRec, tid := t } = false := rfl
  rw [memref_step_nonwait pe s input _ hw]
  have hsame : inputChangeUpdate s input t = s :=
    inputChangeUpdate_same s input t hprev.symm
  have hmk : ∀ u : PerShard, markerUpdate u { kind := .instrRec, tid := t } = u :=
    fun u => rfl
  simp only [isInstrRec, if_true, hsame, hmk]

theorem step_instr_same_proj (pe : Nat) (s : PerShard) (input t : Int)
    (hprev : s.prev_input = input) :
    (parallel_shard_memref pe s input { kind := .instrRec, tid := t }).2.counters.instrs
        = s.counters.instrs + 1 ∧
    (parallel_shard_memref pe s input { kind := .instrRec, tid := t }).2.cur_segment_instrs
        = (if s.cur_segment_instrs + 1 = pe then 0 else s.cur_segment_instrs + 1) ∧
    (parallel_shard_memref pe s input { kind := .instrRec, tid := t }).2.thread_sequence
        = (if s.cur_segment_instrs + 1 = pe then s.thread_sequence ++ [inputLetter input]
           else s.thread_sequence) ∧
    (parallel_shard_memref pe s input { kind := .instrRec, tid := t }).2.prev_input = input ∧
    (parallel_shard_memref pe s input { kind := .instrRec, tid := t }).2.saw_maybe_blocking
        = false ∧
    (parallel_shard_memref pe s input { kind := .instrRec, tid := t }).2.saw_exit = false ∧
    (parallel_shard_memref pe s input
        { kind := .instrRec, tid := t }).2.direct_switch_target = INVALID_THREAD_ID := by
  rw [step_instr_same pe s input t hprev]
  obtain ⟨b1, -, -, -, -, b6, b7, b8, b9, b10, b11, -⟩ :=
    threadBookkeep_frame (instrUpdate pe s input) t
  have h := instrUpdate_eq pe s input
  refine ⟨?_, ?_, ?_, ?_, ?_, ?_, ?_⟩
  · show (threadBookkeep (instrUpdate pe s input) t).counters.instrs = s.counters.instrs + 1
    rw [b1, h]
  · show (threadBookkeep (instrUpdate pe s input) t).cur_segment_instrs = _
    rw [b7, h]
  · show (threadBookkeep (instrUpdate pe s input) t).thread_sequence = _
    rw [b6, h]
  · show (threadBookkeep (instrUpdate pe s input) t).prev_input = input
    rw [b8, h, ← hprev]
  · show (threadBookkeep (instrUpdate pe s input) t).saw_maybe_blocking = false
    rw [b9, h]
  · show (threadBookkeep (instrUpdate pe s input) t).saw_exit = false
    rw [b10, h]
  · show (threadBookkeep (instrUpdate pe s input) t).direct_switch_target = INVALID_THREAD_ID
    rw [b11, h]

theorem instr_run_inv (pe : Nat) (input t : Int) (hpe : 0 < pe) :
    ∀ (k : Nat) (s : PerShard), s.prev_input = input → s.cur_segment_instrs < pe →
    ∃ a c,
      (runShard pe s (instrRun k input t)).counters.instrs = s.counters.instrs + k ∧
      (runShard pe s (instrRun k input t)).cur_segment_instrs = c ∧
      (runShard pe s (instrRun k input t)).thread_sequence
          = s.thread_sequence ++ List.replicate a (inputLetter input) ∧
      (runShard pe s (instrRun k input t)).prev_input = input ∧
      c < pe ∧ c + pe * a = s.cur_segment_instrs + k ∧
      (1 ≤ k →
        (runShard pe s (instrRun k input t)).saw_maybe_blocking = false ∧
        (runShard pe s (instrRun k input t)).saw_exit = false ∧
        (runShard pe s (instrRun k input t)).direct_switch_target = INVALID_THREAD_ID) := by
  intro k
  induction k with
  | zero =>
    intro s hprev hcur
    refine ⟨0, s.cur_segment_instrs, ?_⟩
    simp [instrRun, runShard_nil, hprev, hcur]
  | succ k ih =>
    intro s hprev hcur
    have hcons : instrRun (k + 1) input t
        = (input, ({ kind := .instrRec, tid := t } : Memref)) :: instrRun k input t := by
      simp [instrRun, List.replicate_succ]
    rw [hcons, runShard_pair_cons]
    obtain ⟨p1, p2, p3, p4, p5, p6, p7⟩ := step_instr_same_proj pe s input t hprev
    have hcur2 : (parallel_shard_memref pe s input
        { kind := .instrRec, tid := t }).2.cur_segment_instrs < pe := by
      rw [p2]
      split
      · exact hpe
      · omega
    obtain ⟨a, c, q1, q2, q3, q4, q5, q6, q7⟩ :=
      ih (parallel_shard_memref pe s input { kind := .instrRec, tid := t }).2 p4 hcur2
    by_cases hq : s.cur_segment_instrs + 1 = pe
    · refine ⟨a + 1, c, ?_, q2, ?_, q4, q5, ?_, ?_⟩
      · rw [q1, p1]; omega
      · rw [q3, p3, if_pos hq, List.append_assoc]
        simp [List.replicate_succ]
      · rw [p2, if_pos hq] at q6
        have hmul : pe * (a + 1) = pe * a + pe := by ring
        omega
      · intro _
        rcases Nat.eq_zero_or_pos k with hk | hk
        · subst hk
          have : runShard pe (parallel_shard_memref pe s input
              { kind := .instrRec, tid := t }).2 (instrRun 0 input t)
              = (parallel_shard_memref pe s input { kind := .instrRec, tid := t }).2 := by
            simp [instrRun, runShard_nil]
          rw [this]
          exact ⟨p5, p6, p7⟩
        · exact q7 hk
    · refine ⟨a, c, ?_, q2, ?_, q4, q5, ?_, ?_⟩
      · rw [q1, p1]; omega
      · rw [q3, p3, if_neg hq]
      · rw [p2, if_neg hq] at q6
        omega
      · intro _
        rcases Nat.eq_zero_or_pos k with hk | hk
        · subst hk
          have : runShard pe (parallel_shard_memref pe s input
              { kind := .instrRec, tid := t }).2 (instrRun 0 input t)
              = (parallel_shard_memref pe s input { kind := .instrRec, tid := t }).2 := by
            simp [instrRun, runShard_nil]
          rw [this]
          exact ⟨p5, p6, p7⟩
        · exact q7 hk

theorem waitRec_is_wait : isCoreWaitRec waitRec = true := rfl

theorem sustained_wait_inv (pe : Nat) (i : Int) :
    ∀ (m : Nat) (u : PerShard), u.prev_was_wait = true →
    (runShard pe u (waitRun m i)).counters.waits = u.counters.waits + m ∧
    (runShard pe u (waitRun m i)).cur_segment_instrs = u.cur_segment_instrs + m ∧
    (runShard pe u (waitRun m i)).prev_was_wait = true ∧
    (runShard pe u (waitRun m i)).thread_sequence
        = u.thread_sequence
          ++ (if u.cur_segment_instrs < pe ∧ pe ≤ u.cur_segment_instrs + m
              then [WAIT_SYMBOL] else []) := by
  intro m
  induction m with
  | zero =>
    intro u hu
    have hc : ¬(u.cur_segment_instrs < pe ∧ pe ≤ u.cur_segment_instrs + 0) := by omega
    simp [waitRun, runShard_nil, hu, hc]
  | succ m ih =>
    intro u hu
    have hcons : waitRun (m + 1) i = (i, waitRec) :: waitRun m i := by
      simp [waitRun, List.replicate_succ]
    rw [hcons, runShard_pair_cons, memref_step_wait pe u i waitRec waitRec_is_wait]
    by_cases hq : u.cur_segment_instrs + 1 = pe
    · rw [coreWaitUpdate_sustained_hit pe u hu hq]
      obtain ⟨w1, w2, w3, w4⟩ := ih
        { u with
          counters := { u.counters with waits := u.counters.waits + 1 }
          cur_segment_instrs := u.cur_segment_instrs + 1
          thread_sequence := u.thread_sequence ++ [WAIT_SYMBOL] } hu
      dsimp only at w1 w2 w4
      refine ⟨?_, ?_, w3, ?_⟩
      · rw [w1]; omega
      · rw [w2]; omega
      · rw [w4]
        have hin : ¬(u.cur_segment_instrs + 1 < pe
            ∧ pe ≤ u.cur_segment_instrs + 1 + m) := by omega
        have hgoal : u.cur_segment_instrs < pe
            ∧ pe ≤ u.cur_segment_instrs + (m + 1) := by omega
        rw [if_neg hin, if_pos hgoal]
        simp
    · rw [coreWaitUpdate_sustained_miss pe u hu hq]
      obtain ⟨w1, w2, w3, w4⟩ := ih
        { u with
          counters := { u.counters with waits := u.counters.waits + 1 }
          cur_segment_instrs := u.cur_segment_instrs + 1 } hu
      dsimp only at w1 w2 w4
      refine ⟨?_, ?_, w3, ?_⟩
      · rw [w1]; omega
      · rw [w2]; omega
      · rw [w4]
        have hiff : (u.cur_segment_instrs + 1 < pe ∧ pe ≤ u.cur_segment_instrs + 1 + m)
            ↔ (u.cur_segment_instrs < pe ∧ pe ≤ u.cur_segment_instrs + (m + 1)) := by
          omega
        rw [if_congr hiff rfl rfl]

theorem foldl_addCounters (l : List Counters) :
    ∀ z : Counters,
    (l.foldl addCounters z).instrs = z.instrs + (l.map Counters.instrs).sum ∧
    (l.foldl addCounters z).total_switches
        = z.total_switches + (l.map Counters.total_switches).sum ∧
    (l.foldl addCounters z).voluntary_switches
        = z.voluntary_switches + (l.map Counters.voluntary_switches).sum ∧
    (l.foldl addCounters z).direct_switches
        = z.direct_switches + (l.map Counters.direct_switches).sum ∧
    (l.foldl addCounters z).syscalls = z.syscalls + (l.map Counters.syscalls).sum ∧
    (l.foldl addCounters z).maybe_blocking_syscalls
        = z.maybe_blocking_syscalls + (l.map Counters.maybe_blocking_syscalls).sum ∧
    (l.foldl addCounters z).direct_switch_requests
        = z.direct_switch_requests + (l.map Counters.direct_switch_requests).sum ∧
    (l.foldl addCounters z).waits = z.waits + (l.map Counters.waits).sum := by
  induction l with
  | nil =>
    intro z
    simp
  | cons c rest ih =>
    intro z
    obtain ⟨i1, i2, i3, i4, i5, i6, i7, i8⟩ := ih (addCounters z c)
    simp only [List.foldl_cons, List.map_cons, List.sum_cons]
    refine ⟨?_, ?_, ?_, ?_, ?_, ?_, ?_, ?_⟩ <;>
      simp_all [addCounters] <;> omega

theorem run_error_preserved (pe : Nat) (rs : List (Int × Memref)) :
    ∀ s : PerShard, (runShard pe s rs).error = s.error := by
  induction rs with
  | nil => intro s; rfl
  | cons p rest ih =>
    intro s
    rw [runShard_cons]
    exact (ih _).trans (step_error pe s p.1 p.2)

/-! The claims. -/

/-- C5 counterexample: the claim that every division in counter printing is
guarded against a zero denominator fails at the all-zero counters (a shard
that processed nothing): `print_counters` still performs the CSPKI and the
instructions-per-switch divisions, whose denominators (`instrs` and
`total_switches`) are both 0 there. -/
theorem division_guard_claim_cex :
    ¬ (∀ d ∈ print_counters_divisions initCounters, d.2 ≠ 0) := by
  decide

/-- C5 (amended): in `print_counters`, the voluntary/direct percentage
divisions are emitted only under `total_switches > 0` and so never divide by
zero, but the CSPKI division (denominator `instrs`) and the
instructions-per-switch division (denominator `total_switches`) are
performed unconditionally, with no zero guard. -/
theorem print_counters_guards (c : Counters) :
    (∀ d ∈ percentDivisions c, 0 < d.2) ∧
    (1000 * c.total_switches, c.instrs) ∈ print_counters_divisions c ∧
    (c.instrs, c.total_switches) ∈ print_counters_divisions c := by
  refine ⟨?_, ?_, ?_⟩
  · intro d hd
    rw [percentDivisions] at hd
    split at hd
    · next h =>
      simp only [List.mem_cons, List.mem_singleton] at hd
      rcases hd with rfl | rfl | h0
      · exact h
      · exact h
      · simp at h0
    · simp at hd
  · simp [print_counters_divisions, ratioDivisions]
  · simp [print_counters_divisions, ratioDivisions]

/-- C6: non-sharded operation is rejected at setup — `initialize_stream`
returns a non-empty message for a non-null serial stream and the empty
string for a null one, `initialize_shard_type` returns a non-empty message
for any shard type other than by-core and the empty string for by-core, and
the serial entry point `process_memref` always returns false and stores a
non-empty descriptive message. -/
theorem reject_unsharded (st : ShardType) (hst : st ≠ ShardType.byCore)
    (e : String) (r : Memref) (u : Unit) :
    init_stream (some u) ≠ "" ∧
    init_stream none = "" ∧
    init_shard_type st ≠ "" ∧
    init_shard_type ShardType.byCore = "" ∧
    (process_memref e r).1 = false ∧
    (process_memref e r).2 ≠ "" := by
  refine ⟨?_, rfl, ?_, rfl, rfl, ?_⟩
  · simp [init_stream]
  · simp [init_shard_type, hst]
  · simp [process_memref]

/-- C6 witness: the theorem instantiated at shard type by-thread, an empty
stored error string, a concrete record and the unit stream handle. -/
theorem reject_unsharded_witness :
    ShardType.byThread ≠ ShardType.byCore ∧
    (init_stream (some ()) ≠ "" ∧
     init_stream none = "" ∧
     init_shard_type ShardType.byThread ≠ "" ∧
     init_shard_type ShardType.byCore = "" ∧
     (process_memref "" waitRec).1 = false ∧
     (process_memref "" waitRec).2 ≠ "") :=
  ⟨by decide, reject_unsharded ShardType.byThread (by decide) "" waitRec ()⟩

/-- C7: the totals computed by `print_results` (a fold of `+=` over the
registered shards starting from zero counters) equal the element-wise sum of
the per-shard counters, for every scalar counter: instructions,
total/voluntary/direct switches, syscalls, maybe-blocking syscalls,
direct-switch requests and waits. -/
theorem aggregate_elementwise (shards : List Counters) :
    (aggregateCounters shards).instrs = (shards.map Counters.instrs).sum ∧
    (aggregateCounters shards).total_switches
        = (shards.map Counters.total_switches).sum ∧
    (aggregateCounters shards).voluntary_switches
        = (shards.map Counters.voluntary_switches).sum ∧
    (aggregateCounters shards).direct_switches
        = (shards.map Counters.direct_switches).sum ∧
    (aggregateCounters shards).syscalls = (shards.map Counters.syscalls).sum ∧
    (aggregateCounters shards).maybe_blocking_syscalls
        = (shards.map Counters.maybe_blocking_syscalls).sum ∧
    (aggregateCounters shards).direct_switch_requests
        = (shards.map Counters.direct_switch_requests).sum ∧
    (aggregateCounters shards).waits = (shards.map Counters.waits).sum := by
  obtain ⟨i1, i2, i3, i4, i5, i6, i7, i8⟩ := foldl_addCounters shards initCounters
  refine ⟨?_, ?_, ?_, ?_, ?_, ?_, ?_, ?_⟩
  · rw [aggregateCounters, i1]; simp [initCounters]
  · rw [aggregateCounters, i2]; simp [initCounters]
  · rw [aggregateCounters, i3]; simp [initCounters]
  · rw [aggregateCounters, i4]; simp [initCounters]
  · rw [aggregateCounters, i5]; simp [initCounters]
  · rw [aggregateCounters, i6]; simp [initCounters]
  · rw [aggregateCounters, i7]; simp [initCounters]
  · rw [aggregateCounters, i8]; simp [initCounters]

/-- C8: the timeline is append-only — for every shard state and record, the
sequence before a `parallel_shard_memref` call is a prefix of the sequence
after it (the call only ever appends characters). -/
theorem thread_sequence_append_only (pe : Nat) (s : PerShard) (i : Int) (r : Memref) :
    ∃ t, (parallel_shard_memref pe s i r).2.thread_sequence = s.thread_sequence ++ t := by
  cases hw : isCoreWaitRec r with
  | true =>
    rw [memref_step_wait pe s i r hw]
    exact coreWaitUpdate_seq pe s
  | false =>
    rw [memref_step_nonwait pe s i r hw]
    cases hi : isInstrRec r with
    | true =>
      simp only [hi, if_true]
      obtain ⟨-, -, -, -, -, m6, -, -, -⟩ :=
        markerUpdate_frame
          (threadBookkeep (instrUpdate pe (inputChangeUpdate s i r.tid) i) r.tid) r
      obtain ⟨-, -, -, -, -, t6, -, -, -, -, -, -⟩ :=
        threadBookkeep_frame (instrUpdate pe (inputChangeUpdate s i r.tid) i) r.tid
      obtain ⟨t2, h2⟩ := instrUpdate_seq pe (inputChangeUpdate s i r.tid) i
      obtain ⟨t1, h1⟩ := inputChangeUpdate_seq s i r.tid
      refine ⟨t1 ++ t2, ?_⟩
      show (markerUpdate
          (threadBookkeep (instrUpdate pe (inputChangeUpdate s i r.tid) i) r.tid)
          r).thread_sequence = s.thread_sequence ++ (t1 ++ t2)
      rw [m6, t6, h2, h1, List.append_assoc]
    | false =>
      simp only [hi, Bool.false_eq_true, if_false]
      obtain ⟨-, -, -, -, -, m6, -, -, -⟩ :=
        markerUpdate_frame (threadBookkeep (inputChangeUpdate s i r.tid) r.tid) r
      obtain ⟨-, -, -, -, -, t6, -, -, -, -, -, -⟩ :=
        threadBookkeep_frame (inputChangeUpdate s i r.tid) r.tid
      obtain ⟨t1, h1⟩ := inputChangeUpdate_seq s i r.tid
      refine ⟨t1, ?_⟩
      show (markerUpdate
          (threadBookkeep (inputChangeUpdate s i r.tid) r.tid) r).thread_sequence
          = s.thread_sequence ++ t1
      rw [m6, t6, h1]

/-- C10: the parallel per-record entry point never fails and never touches
the shard-local error: it returns true on every record, leaves `error`
unchanged, and after any sequence of records fed to a freshly registered
shard `parallel_shard_error` still returns the empty string. -/
theorem parallel_shard_never_fails (pe : Nat) (s : PerShard) (i : Int) (r : Memref)
    (rs : List (Int × Memref)) (core : Int) :
    (parallel_shard_memref pe s i r).1 = true ∧
    (parallel_shard_memref pe s i r).2.error = s.error ∧
    parallel_shard_error (runShard pe (per_shard_init core) rs) = "" := by
  refine ⟨?_, step_error pe s i r, ?_⟩
  · cases hw : isCoreWaitRec r with
    | true => rw [memref_step_wait pe s i r hw]
    | false => rw [memref_step_nonwait pe s i r hw]
  · rw [parallel_shard_error, run_error_preserved]
    rfl

theorem step_to_X (pe : Nat) (s : PerShard) (i : Int) (r : Memref)
    (hw : isCoreWaitRec r = false) :
    (parallel_shard_memref pe s i r).2.prev_input
        = (if isInstrRec r then instrUpdate pe (inputChangeUpdate s i r.tid) i
           else inputChangeUpdate s i r.tid).prev_input ∧
    (parallel_shard_memref pe s i r).2.thread_sequence
        = (if isInstrRec r then instrUpdate pe (inputChangeUpdate s i r.tid) i
           else inputChangeUpdate s i r.tid).thread_sequence ∧
    (parallel_shard_memref pe s i r).2.cur_segment_instrs
        = (if isInstrRec r then instrUpdate pe (inputChangeUpdate s i r.tid) i
           else inputChangeUpdate s i r.tid).cur_segment_instrs := by
  rw [memref_step_nonwait pe s i r hw]
  obtain ⟨-, -, -, -, -, m6, m7, m8, -⟩ :=
    markerUpdate_frame
      (threadBookkeep
        (if isInstrRec r then instrUpdate pe (inputChangeUpdate s i r.tid) i
         else inputChangeUpdate s i r.tid) r.tid) r
  obtain ⟨-, -, -, -, -, t6, t7, t8, -, -, -, -⟩ :=
    threadBookkeep_frame
      (if isInstrRec r then instrUpdate pe (inputChangeUpdate s i r.tid) i
       else inputChangeUpdate s i r.tid) r.tid
  exact ⟨m8.trans t8, m6.trans t6, m7.trans t7⟩

/-- C1 counterexample: with `print_every = 1`, a fresh shard fed three
consecutive CORE_WAIT records is one first wait plus two further full quanta
of sustained waiting, so the claim (one additional wait character per full
quantum) demands three wait characters; the code emits only two, because the
sustained-wait count is not reset when the extra wait character is appended,
so it can only hit `print_every` once per run. -/
theorem wait_quantum_claim_cex :
    (runShard 1 (per_shard_init 0) (waitRun 3 0)).thread_sequence
        = [WAIT_SYMBOL, WAIT_SYMBOL] ∧
    (runShard 1 (per_shard_init 0) (waitRun 3 0)).thread_sequence.length ≠ 1 + 2 := by
  decide

/-- C1 (amended): over a maximal run of `n` consecutive CORE_WAIT records
(entered with `prev_was_wait = false`), the wait counter increments by 1 per
record, the first record appends exactly one wait character and resets
`cur_segment_instrs` to 0, and exactly one additional wait character is
appended when the sustained count first reaches `print_every` (at record
`print_every + 1`); no further wait characters follow within the run, since
the count is not reset on that append. -/
theorem wait_run_compression (pe n : Nat) (s : PerShard) (i : Int)
    (hpe : 0 < pe) (hn : 1 ≤ n) (hw : s.prev_was_wait = false) :
    (runShard pe s (waitRun n i)).counters.waits = s.counters.waits + n ∧
    (runShard pe s (waitRun n i)).cur_segment_instrs = n - 1 ∧
    (runShard pe s (waitRun n i)).prev_was_wait = true ∧
    (runShard pe s (waitRun n i)).thread_sequence
        = s.thread_sequence
          ++ (if n ≤ pe then [WAIT_SYMBOL] else [WAIT_SYMBOL, WAIT_SYMBOL]) := by
  obtain ⟨m, rfl⟩ : ∃ m, n = m + 1 := ⟨n - 1, by omega⟩
  have hcons : waitRun (m + 1) i = (i, waitRec) :: waitRun m i := by
    simp [waitRun, List.replicate_succ]
  rw [hcons, runShard_pair_cons, memref_step_wait pe s i waitRec waitRec_is_wait,
    coreWaitUpdate_first pe s hw]
  obtain ⟨w1, w2, w3, w4⟩ := sustained_wait_inv pe i m
    { s with
      counters := { s.counters with waits := s.counters.waits + 1 }
      thread_sequence := s.thread_sequence ++ [WAIT_SYMBOL]
      cur_segment_instrs := 0
      prev_was_wait := true } rfl
  dsimp only at w1 w2 w4
  refine ⟨?_, ?_, w3, ?_⟩
  · rw [w1]; omega
  · rw [w2]; omega
  · rw [w4]
    by_cases hle : pe ≤ m
    · rw [if_pos (by omega : 0 < pe ∧ pe ≤ 0 + m), if_neg (by omega : ¬(m + 1 ≤ pe))]
      simp
    · rw [if_neg (by omega : ¬(0 < pe ∧ pe ≤ 0 + m)), if_pos (by omega : m + 1 ≤ pe)]
      simp

/-- C1 witness: the amended theorem at `print_every = 2` and a run of five
CORE_WAIT records from the concrete state `midShard`. -/
theorem wait_run_compression_witness :
    (0 < 2 ∧ 1 ≤ 5 ∧ midShard.prev_was_wait = false) ∧
    ((runShard 2 midShard (waitRun 5 0)).counters.waits = midShard.counters.waits + 5 ∧
     (runShard 2 midShard (waitRun 5 0)).cur_segment_instrs = 5 - 1 ∧
     (runShard 2 midShard (waitRun 5 0)).prev_was_wait = true ∧
     (runShard 2 midShard (waitRun 5 0)).thread_sequence
        = midShard.thread_sequence
          ++ (if 5 ≤ 2 then [WAIT_SYMBOL] else [WAIT_SYMBOL, WAIT_SYMBOL])) :=
  ⟨⟨by decide, by decide, by decide⟩,
    wait_run_compression 2 5 midShard 0 (by decide) (by decide) (by decide)⟩

/-- C2 counterexample: a switching record that is itself an instruction
violates the claim conjunct that the call leaves `segment_instr_count` at 0:
with `print_every = 2`, processing an instruction record of input 1 on
`midShard` (occupied by input 0) appends exactly the separator and letter and
counts the switch, but the instruction then advances the just-reset segment
count to 1. -/
theorem switch_reset_claim_cex :
    (parallel_shard_memref 2 midShard 1
        { kind := .instrRec, tid := 5 }).2.counters.total_switches
        = midShard.counters.total_switches + 1 ∧
    (parallel_shard_memref 2 midShard 1
        { kind := .instrRec, tid := 5 }).2.thread_sequence
        = midShard.thread_sequence ++ [THREAD_SEPARATOR, inputLetter 1] ∧
    (parallel_shard_memref 2 midShard 1
        { kind := .instrRec, tid := 5 }).2.cur_segment_instrs ≠ 0 := by
  decide

/-- C2 (amended): when a non-wait record arrives with an input id different
from `prev_input` and a non-empty timeline, the call counts exactly one
switch, appends exactly one separator followed by exactly one letter for the
new input, and sets `prev_input` — regardless of the preceding records. The
switch handling resets `segment_instr_count` to 0, and that is the final
value for a non-instruction record; a switching instruction record then
advances it to 1 (or, when `print_every = 1`, immediately completes a
quantum, appending one more letter and returning the count to 0). -/
theorem switch_append_exact (pe : Nat) (s : PerShard) (input : Int) (r : Memref)
    (hw : isCoreWaitRec r = false) (hin : input ≠ s.prev_input)
    (hseq : s.thread_sequence ≠ []) :
    (parallel_shard_memref pe s input r).2.counters.total_switches
        = s.counters.total_switches + 1 ∧
    (parallel_shard_memref pe s input r).2.prev_input = input ∧
    (isInstrRec r = false →
      (parallel_shard_memref pe s input r).2.thread_sequence
          = s.thread_sequence ++ [THREAD_SEPARATOR, inputLetter input] ∧
      (parallel_shard_memref pe s input r).2.cur_segment_instrs = 0) ∧
    (isInstrRec r = true → pe ≠ 1 →
      (parallel_shard_memref pe s input r).2.thread_sequence
          = s.thread_sequence ++ [THREAD_SEPARATOR, inputLetter input] ∧
      (parallel_shard_memref pe s input r).2.cur_segment_instrs = 1) ∧
    (isInstrRec r = true → pe = 1 →
      (parallel_shard_memref pe s input r).2.thread_sequence
          = s.thread_sequence
            ++ [THREAD_SEPARATOR, inputLetter input, inputLetter input] ∧
      (parallel_shard_memref pe s input r).2.cur_segment_instrs = 0) := by
  obtain ⟨x1, x2, x3⟩ := step_to_X pe s input r hw
  have hic := inputChangeUpdate_switch s input r.tid hin hseq
  refine ⟨(step_switch_counts pe s input r hw hin hseq).1, ?_, ?_, ?_, ?_⟩
  · rw [x1]
    cases hi : isInstrRec r with
    | true =>
      simp only [hi, if_true, hic, instrUpdate_eq]
      rfl
    | false =>
      simp only [hi, Bool.false_eq_true, if_false, hic]
      rfl
  · intro hni
    rw [x2, x3]
    simp only [hni, Bool.false_eq_true, if_false, hic]
    exact ⟨by simp [switchLetter, switchCount], rfl⟩
  · intro hi hpe
    rw [x2, x3]
    simp only [hi, if_true, hic, instrUpdate_eq]
    have hcur : (switchLetter (switchCount s r.tid) input).cur_segment_instrs = 0 := rfl
    rw [hcur]
    rw [if_neg (by omega : ¬(0 + 1 = pe)), if_neg (by omega : ¬(0 + 1 = pe))]
    exact ⟨by simp [switchLetter, switchCount], rfl⟩
  · intro hi hpe
    rw [x2, x3]
    simp only [hi, if_true, hic, instrUpdate_eq]
    have hcur : (switchLetter (switchCount s r.tid) input).cur_segment_instrs = 0 := rfl
    rw [hcur]
    rw [if_pos (by omega : 0 + 1 = pe), if_pos (by omega : 0 + 1 = pe)]
    exact ⟨by simp [switchLetter, switchCount], rfl⟩

/-- C2 witness: the amended theorem at `print_every = 3`, state `midShard`
(occupied by input 0, timeline non-empty), a non-instruction record of
thread 5 arriving with input id 1. -/
theorem switch_append_exact_witness :
    (isCoreWaitRec { kind := RecKind.otherRec, tid := 5 } = false ∧
     (1 : Int) ≠ midShard.prev_input ∧ midShard.thread_sequence ≠ []) ∧
    ((parallel_shard_memref 3 midShard 1
        { kind := RecKind.otherRec, tid := 5 }).2.counters.total_switches
        = midShard.counters.total_switches + 1 ∧
     (parallel_shard_memref 3 midShard 1
        { kind := RecKind.otherRec, tid := 5 }).2.prev_input = 1 ∧
     (isInstrRec { kind := RecKind.otherRec, tid := 5 } = false →
       (parallel_shard_memref 3 midShard 1
          { kind := RecKind.otherRec, tid := 5 }).2.thread_sequence
          = midShard.thread_sequence ++ [THREAD_SEPARATOR, inputLetter 1] ∧
       (parallel_shard_memref 3 midShard 1
          { kind := RecKind.otherRec, tid := 5 }).2.cur_segment_instrs = 0) ∧
     (isInstrRec { kind := RecKind.otherRec, tid := 5 } = true → (3 : Nat) ≠ 1 →
       (parallel_shard_memref 3 midShard 1
          { kind := RecKind.otherRec, tid := 5 }).2.thread_sequence
          = midShard.thread_sequence ++ [THREAD_SEPARATOR, inputLetter 1] ∧
       (parallel_shard_memref 3 midShard 1
          { kind := RecKind.otherRec, tid := 5 }).2.cur_segment_instrs = 1) ∧
     (isInstrRec { kind := RecKind.otherRec, tid := 5 } = true → (3 : Nat) = 1 →
       (parallel_shard_memref 3 midShard 1
          { kind := RecKind.otherRec, tid := 5 }).2.thread_sequence
          = midShard.thread_sequence
            ++ [THREAD_SEPARATOR, inputLetter 1, inputLetter 1] ∧
       (parallel_shard_memref 3 midShard 1
          { kind := RecKind.otherRec, tid := 5 }).2.cur_segment_instrs = 0)) :=
  ⟨⟨by decide, by decide, by decide⟩,
    switch_append_exact 3 midShard 1 { kind := RecKind.otherRec, tid := 5 }
      (by decide) (by decide) (by decide)⟩

/-- C9 counterexample: a non-instruction record can reset
`segment_instr_count`: the first CORE_WAIT record of a run (here arriving at
`midShard5`, whose segment count is 5 and whose previous record was not a
wait) resets the count to 0, contradicting the claim that only instruction
records reset it. -/
theorem marker_reset_claim_cex :
    (parallel_shard_memref 10 midShard5 0 waitRec).2.cur_segment_instrs = 0 ∧
    midShard5.cur_segment_instrs ≠ 0 := by
  decide

/-- C9 (amended): non-instruction records never clear the boundary flags —
`saw_maybe_blocking` and `saw_exit` can only be turned on (by a
MAYBE_BLOCKING_SYSCALL marker and a thread-exit record respectively) and
`direct_switch_target` is only overwritten by a DIRECT_THREAD_SWITCH marker
with its nominated value — so markers accumulate evidence within a segment;
`segment_instr_count`, however, is also reset by non-instruction records: to
0 by the first CORE_WAIT of a run and on any detected input change, and it
is incremented by a sustained CORE_WAIT. -/
theorem marker_flag_accumulation (pe : Nat) (s : PerShard) (i : Int) (r : Memref)
    (hni : isInstrRec r = false) :
    (parallel_shard_memref pe s i r).2.saw_maybe_blocking
        = (s.saw_maybe_blocking || isMaybeBlockingRec r) ∧
    (parallel_shard_memref pe s i r).2.saw_exit = (s.saw_exit || isExitRec r) ∧
    (parallel_shard_memref pe s i r).2.direct_switch_target
        = (if isDirectRec r then markerValue r else s.direct_switch_target) ∧
    (parallel_shard_memref pe s i r).2.cur_segment_instrs
        = (if isCoreWaitRec r then
             (if s.prev_was_wait = false then 0 else s.cur_segment_instrs + 1)
           else if i = s.prev_input then s.cur_segment_instrs else 0) := by
  obtain ⟨f1, f2, f3⟩ := step_flags_noninstr pe s i r hni
  refine ⟨f1, f2, f3, ?_⟩
  cases hw : isCoreWaitRec r with
  | true =>
    rw [memref_step_wait pe s i r hw, if_pos rfl]
    cases hpw : s.prev_was_wait with
    | false =>
      rw [coreWaitUpdate_first pe s hpw, if_pos rfl]
    | true =>
      rw [if_neg (by simp [hpw])]
      by_cases hq : s.cur_segment_instrs + 1 = pe
      · rw [coreWaitUpdate_sustained_hit pe s hpw hq]
      · rw [coreWaitUpdate_sustained_miss pe s hpw hq]
  | false =>
    obtain ⟨-, -, x3⟩ := step_to_X pe s i r hw
    rw [x3]
    simp only [hni, hw, Bool.false_eq_true, if_false]
    by_cases hsame : i = s.prev_input
    · rw [inputChangeUpdate_same s i r.tid hsame, if_pos hsame]
    · rw [if_neg hsame]
      by_cases hempty : s.thread_sequence = []
      · rw [inputChangeUpdate_firstLetter s i r.tid hsame hempty]
        rfl
      · rw [inputChangeUpdate_switch s i r.tid hsame hempty]
        rfl

/-- C9 witness: the amended theorem at `print_every = 7`, state `midShard5`
(segment count 5) and a MAYBE_BLOCKING_SYSCALL marker record of thread 3
arriving on the occupying input 0. -/
theorem marker_flag_accumulation_witness :
    isInstrRec { kind := RecKind.markerRec MarkerType.maybeBlockingSyscall 0, tid := 3 }
        = false ∧
    ((parallel_shard_memref 7 midShard5 0
        { kind := RecKind.markerRec MarkerType.maybeBlockingSyscall 0,
          tid := 3 }).2.saw_maybe_blocking
        = (midShard5.saw_maybe_blocking
           || isMaybeBlockingRec
                { kind := RecKind.markerRec MarkerType.maybeBlockingSyscall 0, tid := 3 }) ∧
     (parallel_shard_memref 7 midShard5 0
        { kind := RecKind.markerRec MarkerType.maybeBlockingSyscall 0,
          tid := 3 }).2.saw_exit
        = (midShard5.saw_exit
           || isExitRec
                { kind := RecKind.markerRec MarkerType.maybeBlockingSyscall 0, tid := 3 }) ∧
     (parallel_shard_memref 7 midShard5 0
        { kind := RecKind.markerRec MarkerType.maybeBlockingSyscall 0,
          tid := 3 }).2.direct_switch_target
        = (if isDirectRec
                { kind := RecKind.markerRec MarkerType.maybeBlockingSyscall 0, tid := 3 }
           then markerValue
                { kind := RecKind.markerRec MarkerType.maybeBlockingSyscall 0, tid := 3 }
           else midShard5.direct_switch_target) ∧
     (parallel_shard_memref 7 midShard5 0
        { kind := RecKind.markerRec MarkerType.maybeBlockingSyscall 0,
          tid := 3 }).2.cur_segment_instrs
        = (if isCoreWaitRec
                { kind := RecKind.markerRec MarkerType.maybeBlockingSyscall 0, tid := 3 }
           then (if midShard5.prev_was_wait = false then 0
                 else midShard5.cur_segment_instrs + 1)
           else if (0 : Int) = midShard5.prev_input then midShard5.cur_segment_instrs
                else 0)) :=
  ⟨by decide,
    marker_flag_accumulation 7 midShard5 0
      { kind := RecKind.markerRec MarkerType.maybeBlockingSyscall 0, tid := 3 }
      (by decide)⟩

/-- C4: feeding `n` instruction records of the single occupying input (no
intervening markers) from a segment start increments the global instruction
counter by `n`, leaves `segment_instr_count` at `n mod print_every` (so it
resets exactly every `print_every` instructions), appends exactly one
repeated occupant letter per full quantum (`n / print_every` letters), and —
as every instruction record is a boundary — leaves `saw_maybe_blocking`,
`saw_exit` cleared and `direct_switch_target` at the "none" sentinel. -/
theorem instr_quantum (pe n : Nat) (s : PerShard) (input t : Int)
    (hpe : 0 < pe) (hprev : s.prev_input = input) (hcur : s.cur_segment_instrs = 0) :
    (runShard pe s (instrRun n input t)).counters.instrs = s.counters.instrs + n ∧
    (runShard pe s (instrRun n input t)).cur_segment_instrs = n % pe ∧
    (runShard pe s (instrRun n input t)).thread_sequence
        = s.thread_sequence ++ List.replicate (n / pe) (inputLetter input) ∧
    (1 ≤ n →
      (runShard pe s (instrRun n input t)).saw_maybe_blocking = false ∧
      (runShard pe s (instrRun n input t)).saw_exit = false ∧
      (runShard pe s (instrRun n input t)).direct_switch_target = INVALID_THREAD_ID) := by
  obtain ⟨a, c, q1, q2, q3, q4, q5, q6, q7⟩ :=
    instr_run_inv pe input t hpe n s hprev (by omega)
  rw [hcur] at q6
  have hn : n = c + pe * a := by omega
  have hdiv : n / pe = a := by
    rw [hn, Nat.add_mul_div_left c a hpe, Nat.div_eq_of_lt q5, Nat.zero_add]
  have hmod : n % pe = c := by
    rw [hn, Nat.add_mul_mod_self_left, Nat.mod_eq_of_lt q5]
  exact ⟨q1, by rw [hmod]; exact q2, by rw [hdiv]; exact q3, q7⟩

/-- C4 witness: the theorem at `print_every = 2` and five instruction
records of input 0, thread 3, from the concrete state `midShard`. -/
theorem instr_quantum_witness :
    (0 < 2 ∧ midShard.prev_input = 0 ∧ midShard.cur_segment_instrs = 0) ∧
    ((runShard 2 midShard (instrRun 5 0 3)).counters.instrs
        = midShard.counters.instrs + 5 ∧
     (runShard 2 midShard (instrRun 5 0 3)).cur_segment_instrs = 5 % 2 ∧
     (runShard 2 midShard (instrRun 5 0 3)).thread_sequence
        = midShard.thread_sequence ++ List.replicate (5 / 2) (inputLetter 0) ∧
     (1 ≤ 5 →
       (runShard 2 midShard (instrRun 5 0 3)).saw_maybe_blocking = false ∧
       (runShard 2 midShard (instrRun 5 0 3)).saw_exit = false ∧
       (runShard 2 midShard (instrRun 5 0 3)).direct_switch_target
          = INVALID_THREAD_ID)) :=
  ⟨⟨by decide, by decide, by decide⟩,
    instr_quantum 2 5 midShard 0 3 (by decide) (by decide) (by decide)⟩

/-- C3 counterexample: the claim reads "direct iff a DIRECT_THREAD_SWITCH
marker whose value names the incoming tid occurred since the boundary", but
the code compares only the most recent nomination. After an instruction of
input 0 (the boundary), two DIRECT_THREAD_SWITCH markers nominate threads 5
and then 7; the next record switches to a record with tid 5. A marker naming
tid 5 did occur since the boundary, yet the switch is not counted direct
(the retained target is 7). -/
theorem direct_switch_claim_cex :
    (runShard 10 (per_shard_init 0)
      [(0, { kind := RecKind.instrRec, tid := 3 }),
       (0, { kind := RecKind.markerRec MarkerType.directThreadSwitch 5, tid := 3 }),
       (0, { kind := RecKind.markerRec MarkerType.directThreadSwitch 7, tid := 3 }),
       (1, { kind := RecKind.otherRec, tid := 5 })]).counters.total_switches = 1 ∧
    (runShard 10 (per_shard_init 0)
      [(0, { kind := RecKind.instrRec, tid := 3 }),
       (0, { kind := RecKind.markerRec MarkerType.directThreadSwitch 5, tid := 3 }),
       (0, { kind := RecKind.markerRec MarkerType.directThreadSwitch 7, tid := 3 }),
       (1, { kind := RecKind.otherRec, tid := 5 })]).counters.direct_switch_requests
        = 2 ∧
    (runShard 10 (per_shard_init 0)
      [(0, { kind := RecKind.instrRec, tid := 3 }),
       (0, { kind := RecKind.markerRec MarkerType.directThreadSwitch 5, tid := 3 }),
       (0, { kind := RecKind.markerRec MarkerType.directThreadSwitch 7, tid := 3 }),
       (1, { kind := RecKind.otherRec, tid := 5 })]).counters.direct_switches = 0 := by
  decide

/-- C3 (amended): from a state with cleared boundary flags, after a run of
non-instruction records `rs`, a switching record `r` (non-wait, new input,
non-empty timeline, valid tid) increments `voluntary_switches` by exactly 1
iff a MAYBE_BLOCKING_SYSCALL marker or a thread-exit record occurred in
`rs`, and increments `direct_switches` by exactly 1 iff the most recent
DIRECT_THREAD_SWITCH nomination in `rs` names the tid of the switching
record; and every instruction record clears both flags and the target, so
the evidence never leaks across an instruction boundary. -/
theorem switch_classification (pe : Nat) (s0 : PerShard) (rs : List (Int × Memref))
    (i : Int) (r : Memref)
    (hmb : s0.saw_maybe_blocking = false) (hex : s0.saw_exit = false)
    (htg : s0.direct_switch_target = INVALID_THREAD_ID)
    (hni : ∀ p ∈ rs, isInstrRec p.2 = false)
    (hw : isCoreWaitRec r = false) (htid : r.tid ≠ INVALID_THREAD_ID)
    (hin : i ≠ (runShard pe s0 rs).prev_input)
    (hseq : (runShard pe s0 rs).thread_sequence ≠ []) :
    ((parallel_shard_memref pe (runShard pe s0 rs) i r).2.counters.voluntary_switches
        = (runShard pe s0 rs).counters.voluntary_switches + 1
      ↔ (rs.any (fun p => isMaybeBlockingRec p.2)
         || rs.any (fun p => isExitRec p.2)) = true) ∧
    ((parallel_shard_memref pe (runShard pe s0 rs) i r).2.counters.direct_switches
        = (runShard pe s0 rs).counters.direct_switches + 1
      ↔ lastDirectTarget INVALID_THREAD_ID rs = r.tid) ∧
    (∀ (u : PerShard) (j : Int) (q : Memref), isInstrRec q = true →
      (parallel_shard_memref pe u j q).2.saw_maybe_blocking = false ∧
      (parallel_shard_memref pe u j q).2.saw_exit = false ∧
      (parallel_shard_memref pe u j q).2.direct_switch_target = INVALID_THREAD_ID) := by
  obtain ⟨f1, f2, f3⟩ := flags_after_run pe rs s0 hni
  rw [hmb] at f1
  rw [hex] at f2
  rw [htg] at f3
  obtain ⟨-, c2, c3⟩ := step_switch_counts pe (runShard pe s0 rs) i r hw hin hseq
  refine ⟨?_, ?_, fun u j q hq => step_instr_flags pe u j q hq⟩
  · rw [c2, f1, f2]
    simp only [Bool.false_or]
    by_cases hor : (rs.any (fun p => isMaybeBlockingRec p.2)
        || rs.any (fun p => isExitRec p.2)) = true
    · rw [if_pos hor]
      simp [hor]
    · rw [if_neg hor]
      simp [hor]
  · rw [c3, f3]
    by_cases heq : lastDirectTarget INVALID_THREAD_ID rs = r.tid
    · rw [if_pos heq]
      simp [heq]
    · rw [if_neg heq]
      simp [heq]

/-- C3 witness: the amended theorem at `print_every = 4`, starting state
`midShard` (cleared flags, input 0 on the timeline), a single
MAYBE_BLOCKING_SYSCALL marker, then a switching non-instruction record of
thread 9 arriving with input id 1. -/
theorem switch_classification_witness :
    (midShard.saw_maybe_blocking = false ∧ midShard.saw_exit = false ∧
     midShard.direct_switch_target = INVALID_THREAD_ID ∧
     (∀ p ∈ [((0 : Int),
         ({ kind := RecKind.markerRec MarkerType.maybeBlockingSyscall 0, tid := 3 }
          : Memref))], isInstrRec p.2 = false) ∧
     isCoreWaitRec { kind := RecKind.otherRec, tid := 9 } = false ∧
     ({ kind := RecKind.otherRec, tid := 9 } : Memref).tid ≠ INVALID_THREAD_ID ∧
     (1 : Int) ≠ (runShard 4 midShard
       [(0, { kind := RecKind.markerRec MarkerType.maybeBlockingSyscall 0,
              tid := 3 })]).prev_input ∧
     (runShard 4 midShard
       [(0, { kind := RecKind.markerRec MarkerType.maybeBlockingSyscall 0,
              tid := 3 })]).thread_sequence ≠ []) ∧
    (((parallel_shard_memref 4 (runShard 4 midShard
          [(0, { kind := RecKind.markerRec MarkerType.maybeBlockingSyscall 0,
                 tid := 3 })]) 1
          { kind := RecKind.otherRec, tid := 9 }).2.counters.voluntary_switches
        = (runShard 4 midShard
            [(0, { kind := RecKind.markerRec MarkerType.maybeBlockingSyscall 0,
                   tid := 3 })]).counters.voluntary_switches + 1
      ↔ ([(0, ({ kind := RecKind.markerRec MarkerType.maybeBlockingSyscall 0, tid := 3 }
            : Memref))].any (fun p => isMaybeBlockingRec p.2)
         || [((0 : Int),
              ({ kind := RecKind.markerRec MarkerType.maybeBlockingSyscall 0, tid := 3 }
               : Memref))].any (fun p => isExitRec p.2)) = true) ∧
     ((parallel_shard_memref 4 (runShard 4 midShard
          [(0, { kind := RecKind.markerRec MarkerType.maybeBlockingSyscall 0,
                 tid := 3 })]) 1
          { kind := RecKind.otherRec, tid := 9 }).2.counters.direct_switches
        = (runShard 4 midShard
            [(0, { kind := RecKind.markerRec MarkerType.maybeBlockingSyscall 0,
                   tid := 3 })]).counters.direct_switches + 1
      ↔ lastDirectTarget INVALID_THREAD_ID
          [(0, ({ kind := RecKind.markerRec MarkerType.maybeBlockingSyscall 0, tid := 3 }
            : Memref))] = ({ kind := RecKind.otherRec, tid := 9 } : Memref).tid) ∧
     (∀ (u : PerShard) (j : Int) (q : Memref), isInstrRec q = true →
       (parallel_shard_memref 4 u j q).2.saw_maybe_blocking = false ∧
       (parallel_shard_memref 4 u j q).2.saw_exit = false ∧
       (parallel_shard_memref 4 u j q).2.direct_switch_target = INVALID_THREAD_ID)) :=
  ⟨⟨by decide, by decide, by decide, by decide, by decide, by decide, by decide,
     by decide⟩,
    switch_classification 4 midShard
      [(0, { kind := RecKind.markerRec MarkerType.maybeBlockingSyscall 0, tid := 3 })]
      1 { kind := RecKind.otherRec, tid := 9 }
      (by decide) (by decide) (by decide) (by decide) (by decide) (by decide)
      (by decide) (by decide)⟩

end ScheduleStats
